import Mathlib

/-!
Verification of the Tickr backend (src/main.py) against its specification.

The Python program is a FastAPI application over SQLite.  We shallowly embed
its persistent state (the four tables, with the single `list_sort` settings
row inlined) as a Lean structure `DB`, and each mutating request handler as a
pure function `DB → HResult` that returns the HTTP response, the new store
state, and the list of events published to the SSE broadcaster during the
request.  SQLite `AUTOINCREMENT` columns are modelled by explicit `next…Id`
counters; `CURRENT_TIMESTAMP` by an explicit `now : Nat` argument.

Two faithfulness notes on SQLite semantics, visible in the embedding:
* the connection opened by `get_db` never executes `PRAGMA foreign_keys = ON`,
  and SQLite leaves foreign-key enforcement OFF by default, so the
  `ON DELETE CASCADE` clauses declared in `init_db` never fire at runtime;
  `delete_list` therefore removes only the list row and (explicitly) the
  history rows, leaving the list's item rows in place;
* `ORDER BY h.timestamp DESC LIMIT 100` in `get_history` is modelled as an
  insertion sort by descending timestamp followed by `take 100`.
-/

/-- Row of the `lists` table. -/
structure ListRow where
  id : Nat
  name : String
  icon : String
  item_sort : String
  sort_order : Nat
  created_at : Nat
deriving Repr, DecidableEq

/-- Row of the `items` table.  `completed_at` is `none` when the SQL column
is NULL. -/
structure ItemRow where
  id : Nat
  list_id : Nat
  text : String
  completed : Bool
  created_at : Nat
  completed_at : Option Nat
deriving Repr, DecidableEq

/-- Row of the `history` table.  `item_id` and `item_text` are nullable in
the schema. -/
structure HistoryRow where
  id : Nat
  list_id : Nat
  item_id : Option Nat
  action : String
  item_text : Option String
  timestamp : Nat
deriving Repr, DecidableEq

/-- The persistent store: the three tables plus the single `list_sort` row of
the `settings` table, and the AUTOINCREMENT counters of the three tables. -/
structure DB where
  lists : List ListRow
  items : List ItemRow
  history : List HistoryRow
  list_sort_setting : String
  nextListId : Nat
  nextItemId : Nat
  nextHistoryId : Nat
deriving Repr, DecidableEq

/-- One SSE broadcast event: the `json.dumps({"type": …, "list_id": …})`
payload of `broadcast_update`, kept structured. -/
structure Event where
  etype : String
  list_id : Option Nat
deriving Repr, DecidableEq

/-- A raised `HTTPException(status_code=…, detail=…)`. -/
structure HTTPException where
  status_code : Nat
  detail : String
deriving Repr, DecidableEq

instance {ε α : Type} [DecidableEq ε] [DecidableEq α] : DecidableEq (Except ε α) :=
  fun a b =>
    match a, b with
    | .ok x, .ok y =>
      if h : x = y then .isTrue (by rw [h]) else .isFalse (by simp [h])
    | .error e, .error f =>
      if h : e = f then .isTrue (by rw [h]) else .isFalse (by simp [h])
    | .ok _, .error _ => .isFalse (by simp)
    | .error _, .ok _ => .isFalse (by simp)

/-- Result of one request: the response (all modelled handlers return the
JSON success object, so `Unit`, or raise an `HTTPException`), the store state
after the request, and the events published via `broadcast_update`. -/
structure HResult where
  resp : Except HTTPException Unit
  db : DB
  events : List Event
deriving Repr, DecidableEq

/-- `VALID_SORT_OPTIONS` from main.py. -/
def VALID_SORT_OPTIONS : List String :=
  ["alphabetical", "alphabetical_desc", "created_desc", "created_asc"]

/-- `VALID_LIST_SORT_OPTIONS` from main.py. -/
def VALID_LIST_SORT_OPTIONS : List String :=
  ["alphabetical", "alphabetical_desc", "created_desc", "created_asc", "custom"]

/-- Request body of `PUT /api/lists/{id}` (`ListUpdate` in main.py). -/
structure ListUpdate where
  name : Option String
  icon : Option String
  item_sort : Option String
deriving Repr, DecidableEq

/-- Request body of `POST /api/lists` (`ListCreate` in main.py; `icon`
defaults to "list" on the Python side, here it is always explicit). -/
structure ListCreate where
  name : String
  icon : String
deriving Repr, DecidableEq

/-- Request body of `POST /api/lists/{id}/items` (`ItemCreate` in main.py). -/
structure ItemCreate where
  text : String
  undo : Bool
deriving Repr, DecidableEq

/-- Request body of `PUT /api/items/{id}` (`ItemUpdate` in main.py). -/
structure ItemUpdate where
  text : Option String
  completed : Option Bool
  undo : Bool
deriving Repr, DecidableEq

/-- `POST /api/lists` (`create_list`): insert the list with the next
`sort_order`, append one `list_created` history row, broadcast
`lists_changed`. -/
def create_list (db : DB) (now : Nat) (cd : ListCreate) : HResult :=
  let next_sort_order :=
    if db.lists.isEmpty then 0 else (db.lists.map (·.sort_order)).foldl max 0 + 1
  let row : ListRow :=
    ⟨db.nextListId, cd.name, cd.icon, "alphabetical", next_sort_order, now⟩
  let hist : HistoryRow :=
    ⟨db.nextHistoryId, db.nextListId, none, "list_created", some cd.name, now⟩
  ⟨.ok (),
   { db with lists := db.lists ++ [row],
             history := db.history ++ [hist],
             nextListId := db.nextListId + 1,
             nextHistoryId := db.nextHistoryId + 1 },
   [⟨"lists_changed", none⟩]⟩

/-- `PUT /api/lists/{id}` (`update_list`): validate `item_sort`, then apply
the provided fields to the matching row; no history row is written.  The
UPDATE, commit and broadcast happen only when at least one field was
provided. -/
def update_list (db : DB) (list_id : Nat) (ld : ListUpdate) : HResult :=
  let bad :=
    match ld.item_sort with
    | some s => !(VALID_SORT_OPTIONS.contains s)
    | none => false
  if bad then
    ⟨.error ⟨400, "Invalid sort option. Valid options: " ++
        String.intercalate ", " VALID_SORT_OPTIONS⟩, db, []⟩
  else
    let hasUpdates := ld.name.isSome || ld.icon.isSome || ld.item_sort.isSome
    if hasUpdates then
      let upd := fun l : ListRow =>
        if l.id == list_id then
          { l with name := ld.name.getD l.name,
                   icon := ld.icon.getD l.icon,
                   item_sort := ld.item_sort.getD l.item_sort }
        else l
      ⟨.ok (), { db with lists := db.lists.map upd },
       [⟨"lists_changed", some list_id⟩]⟩
    else ⟨.ok (), db, []⟩

/-- `DELETE /api/lists/{id}` (`delete_list`): deletes the list row and the
list's history rows.  The item rows are NOT touched: SQLite foreign-key
enforcement is off by default and the connection never enables it, so the
schema's `ON DELETE CASCADE` on `items.list_id` does not run. -/
def delete_list (db : DB) (list_id : Nat) : HResult :=
  ⟨.ok (),
   { db with lists := db.lists.filter (fun l => !(l.id == list_id)),
             history := db.history.filter (fun h => !(h.list_id == list_id)) },
   [⟨"lists_changed", none⟩]⟩

/-- `POST /api/lists/{id}/items` (`create_item`): insert the item (completed
defaults to false, `completed_at` NULL), append one history row whose action
is `undo_deleted` when the undo flag is set and `item_created` otherwise,
broadcast `items_changed`. -/
def create_item (db : DB) (now : Nat) (list_id : Nat) (d : ItemCreate) : HResult :=
  let item : ItemRow := ⟨db.nextItemId, list_id, d.text, false, now, none⟩
  let hist : HistoryRow :=
    ⟨db.nextHistoryId, list_id, some db.nextItemId,
     (if d.undo then "undo_deleted" else "item_created"), some d.text, now⟩
  ⟨.ok (),
   { db with items := db.items ++ [item],
             history := db.history ++ [hist],
             nextItemId := db.nextItemId + 1,
             nextHistoryId := db.nextHistoryId + 1 },
   [⟨"items_changed", some list_id⟩]⟩

/-- The `item_data.text is not None and item_data.text != item["text"]`
test of `update_item`. -/
def textChangedFlag (d : ItemUpdate) (item : ItemRow) : Bool :=
  match d.text with
  | some t => t != item.text
  | none => false

/-- The snapshot string `item_data.text or item["text"]` used by the
completed/uncompleted history rows: Python `or` falls through on the empty
string as well as on `None`. -/
def completionSnapshot (d : ItemUpdate) (item : ItemRow) : String :=
  match d.text with
  | some t => if t = "" then item.text else t
  | none => item.text

/-- History rows inserted by one `update_item` call that found `item`:
first the text-edit row (only when the provided text differs from the stored
text), then the completed/uncompleted row (whenever `completed` was
provided). -/
def updateItemHistory (db : DB) (now item_id : Nat) (d : ItemUpdate)
    (item : ItemRow) : List HistoryRow :=
  let hist1 : List HistoryRow :=
    match d.text with
    | some t =>
      if t != item.text then
        [⟨db.nextHistoryId, item.list_id, some item_id,
          (if d.undo then "undo_edited" else "item_edited"),
          some (item.text ++ " \u00E2\u2020\u2019 " ++ t), now⟩]
      else []
    | none => []
  let hist2 : List HistoryRow :=
    match d.completed with
    | some c =>
      [⟨db.nextHistoryId + hist1.length, item.list_id, some item_id,
        (if c then (if d.undo then "undo_uncompleted" else "item_completed")
         else (if d.undo then "undo_completed" else "item_uncompleted")),
        some (completionSnapshot d item), now⟩]
    | none => []
  hist1 ++ hist2

/-- The row transformation of the final `UPDATE items SET … WHERE id = ?` of
`update_item`: text is set only when it changed relative to the originally
fetched `item`; `completed` (and `completed_at`) only when provided. -/
def applyItemUpdate (now : Nat) (item_id : Nat) (d : ItemUpdate)
    (item : ItemRow) (i : ItemRow) : ItemRow :=
  if i.id == item_id then
    let i1 := if textChangedFlag d item then { i with text := d.text.getD i.text } else i
    match d.completed with
    | some c =>
      if c then { i1 with completed := true, completed_at := some now }
      else { i1 with completed := false, completed_at := none }
    | none => i1
  else i

/-- `PUT /api/items/{id}` (`update_item`): 404 when the item does not exist;
otherwise log the changed aspects to history and, when any field is being
updated, apply the UPDATE, commit and broadcast `items_changed` for the
item's list. -/
def update_item (db : DB) (now : Nat) (item_id : Nat) (d : ItemUpdate) : HResult :=
  match db.items.find? (fun i => i.id == item_id) with
  | none => ⟨.error ⟨404, "Item not found"⟩, db, []⟩
  | some item =>
    let hist := updateItemHistory db now item_id d item
    let db1 : DB :=
      { db with history := db.history ++ hist,
                nextHistoryId := db.nextHistoryId + hist.length }
    let hasUpdates := textChangedFlag d item || d.completed.isSome
    if hasUpdates then
      ⟨.ok (),
       { db1 with items := db1.items.map (applyItemUpdate now item_id d item) },
       [⟨"items_changed", some item.list_id⟩]⟩
    else ⟨.ok (), db1, []⟩

/-- `DELETE /api/items/{id}` (`delete_item`): when the item exists, append
one history row (`undo_created` under the undo flag, else `item_deleted`)
recording the item's text, then delete the row; broadcast `items_changed`
only when the fetched `list_id` is truthy (non-`None` and non-zero in
Python).  A missing item is not an error. -/
def delete_item (db : DB) (now : Nat) (item_id : Nat) (undo : Bool) : HResult :=
  let item? := db.items.find? (fun i => i.id == item_id)
  let db1 : DB :=
    match item? with
    | some item =>
      let hist : HistoryRow :=
        ⟨db.nextHistoryId, item.list_id, some item_id,
         (if undo then "undo_created" else "item_deleted"), some item.text, now⟩
      { db with history := db.history ++ [hist],
                nextHistoryId := db.nextHistoryId + 1 }
    | none => db
  let db2 : DB := { db1 with items := db1.items.filter (fun i => !(i.id == item_id)) }
  let events : List Event :=
    match item?.map (·.list_id) with
    | some l => if l == 0 then [] else [⟨"items_changed", some l⟩]
    | none => []
  ⟨.ok (), db2, events⟩

/-- `PUT /api/settings` (`update_settings`): validate `list_sort` against
`VALID_LIST_SORT_OPTIONS` (400 on failure, before any write), else upsert
the setting.  No history row, no broadcast. -/
def update_settings (db : DB) (list_sort : Option String) : HResult :=
  match list_sort with
  | some s =>
    if VALID_LIST_SORT_OPTIONS.contains s then
      ⟨.ok (), { db with list_sort_setting := s }, []⟩
    else
      ⟨.error ⟨400, "Invalid list sort option. Valid: " ++
          String.intercalate ", " VALID_LIST_SORT_OPTIONS⟩, db, []⟩
  | none => ⟨.ok (), db, []⟩

/-- Descending-timestamp order used by `ORDER BY h.timestamp DESC`. -/
def tsGE (a b : HistoryRow) : Prop := b.timestamp ≤ a.timestamp

instance : DecidableRel tsGE :=
  fun a b => inferInstanceAs (Decidable (b.timestamp ≤ a.timestamp))

instance : IsTotal HistoryRow tsGE :=
  ⟨fun a b => Nat.le_total b.timestamp a.timestamp⟩

instance : IsTrans HistoryRow tsGE :=
  ⟨fun _ _ _ hab hbc => Nat.le_trans hbc hab⟩

/-- One row of the `get_history` response: all `history` columns plus the
LEFT JOIN columns `item_current_completed` and `item_current_text`. -/
structure HistoryOut where
  entry : HistoryRow
  item_current_completed : Option Bool
  item_current_text : Option String
deriving Repr, DecidableEq

/-- The LEFT JOIN `items i ON h.item_id = i.id` for one history row (under
unique item ids at most one item matches; a NULL `item_id` matches none). -/
def enrich (items : List ItemRow) (h : HistoryRow) : HistoryOut :=
  match items.find? (fun i => h.item_id == some i.id) with
  | some i => ⟨h, some i.completed, some i.text⟩
  | none => ⟨h, none, none⟩

/-- `GET /api/lists/{id}/history` (`get_history`): the list's history rows,
newest first, limited to 100, each LEFT JOINed with the current item row. -/
def get_history (db : DB) (list_id : Nat) : List HistoryOut :=
  ((((db.history.filter (fun h => h.list_id == list_id)).insertionSort tsGE).take 100).map
    (enrich db.items))

/-- Python `queue.Queue`: `maxsize` ≤ 0 (here: = 0) means unbounded. -/
structure BQueue where
  maxsize : Nat
  messages : List Event
deriving Repr, DecidableEq

/-- `Queue.full()`: true only for a bounded queue at (or beyond) capacity. -/
def queueFull (q : BQueue) : Bool := 0 < q.maxsize && q.maxsize ≤ q.messages.length

/-- `queue.put_nowait(message)` under the `except Full: pass` of
`broadcast_update`: drop the message when the queue is full. -/
def put_nowait (q : BQueue) (e : Event) : BQueue :=
  if queueFull q then q else { q with messages := q.messages ++ [e] }

/-- `broadcast_update`: deliver the event to every connected client queue,
dropping it per-queue on overflow. -/
def broadcast_update (clients : List BQueue) (e : Event) : List BQueue :=
  clients.map (fun q => put_nowait q e)

/-- The queue registered by `sse_events` for a new subscriber: `Queue()`,
i.e. `maxsize = 0`, which Python's `queue` module treats as unbounded. -/
def sseNewQueue : BQueue := ⟨0, []⟩

/-- Publish a sequence of events to one subscriber queue (the subscriber
consuming none of them). -/
def publishAll (q : BQueue) (es : List Event) : BQueue := es.foldl put_nowait q

/-- A one-list, one-item store used to exercise the theorems on concrete
inputs. -/
def exDB : DB :=
  ⟨[⟨1, "Todos", "check", "alphabetical", 0, 0⟩],
   [⟨1, 1, "Milk", false, 0, none⟩],
   [], "alphabetical", 2, 2, 1⟩

/-- The single item of `exDB`. -/
def exItem : ItemRow := ⟨1, 1, "Milk", false, 0, none⟩

/-- A one-list store with an empty `items` table. -/
def exEmptyDB : DB :=
  ⟨[⟨1, "Todos", "check", "alphabetical", 0, 0⟩], [], [], "alphabetical", 2, 1, 1⟩

/-- A store where list 1 owns item 1 and one history row, for exercising
`delete_list`. -/
def exListDB : DB :=
  ⟨[⟨1, "Groceries", "list", "alphabetical", 0, 0⟩],
   [⟨1, 1, "Milk", false, 1, none⟩],
   [⟨1, 1, some 1, "item_created", some "Milk", 1⟩],
   "alphabetical", 2, 2, 2⟩

/-- A store whose history references both a still-existing item (id 2) and a
deleted one (id 1). -/
def exHistDB : DB :=
  ⟨[⟨1, "Todos", "check", "alphabetical", 0, 0⟩],
   [⟨2, 1, "Eggs", true, 1, some 3⟩],
   [⟨1, 1, some 1, "item_created", some "Milk", 1⟩,
    ⟨2, 1, some 1, "item_deleted", some "Milk", 2⟩,
    ⟨3, 1, some 2, "item_created", some "Eggs", 3⟩],
   "alphabetical", 2, 3, 4⟩

/-- Actions of the history rows a request appended to the store. -/
def histActionsAppended (db : DB) (r : HResult) : List String :=
  (r.db.history.drop db.history.length).map (·.action)

/-- The enriched form of `exHistDB`'s newest entry, whose item (id 2) still
exists. -/
def exOutLive : HistoryOut :=
  ⟨⟨3, 1, some 2, "item_created", some "Eggs", 3⟩, some true, some "Eggs"⟩

/-- The enriched form of `exHistDB`'s `item_deleted` entry, whose item
(id 1) no longer exists. -/
def exOutGone : HistoryOut :=
  ⟨⟨2, 1, some 1, "item_deleted", some "Milk", 2⟩, none, none⟩

/-- The surviving item of `exHistDB`. -/
def exItem2 : ItemRow := ⟨2, 1, "Eggs", true, 1, some 3⟩

/-- Sample broadcast events. -/
def exEventA : Event := ⟨"lists_changed", none⟩

def exEventB : Event := ⟨"items_changed", some 1⟩

/-- A bounded subscriber queue that is already full (capacity 1, one
message). -/
def exFullQ : BQueue := ⟨1, [exEventA]⟩

/-- A bounded subscriber queue with room (capacity 2, empty). -/
def exRoomQ : BQueue := ⟨2, []⟩

/-- `enrich` keeps the underlying history row unchanged. -/
theorem enrich_entry (items : List ItemRow) (h : HistoryRow) :
    (enrich items h).entry = h := by
  unfold enrich
  split <;> rfl

/-- When no current item matches the entry's `item_id` (deleted item, or a
NULL reference), the LEFT JOIN contributes NULLs. -/
theorem enrich_no_match (items : List ItemRow) (h : HistoryRow)
    (hnone : ∀ i ∈ items, h.item_id ≠ some i.id) :
    enrich items h = ⟨h, none, none⟩ := by
  unfold enrich
  have hf : items.find? (fun i => h.item_id == some i.id) = none := by
    rw [List.find?_eq_none]
    intro i hi
    simpa using hnone i hi
  rw [hf]

/-- When a current item matches the entry's `item_id` and item ids are
unique, the LEFT JOIN contributes exactly that item's fields. -/
theorem enrich_match (items : List ItemRow) (h : HistoryRow) (i : ItemRow)
    (hu : items.Pairwise (fun a b => a.id ≠ b.id))
    (hi : i ∈ items) (hm : h.item_id = some i.id) :
    enrich items h = ⟨h, some i.completed, some i.text⟩ := by
  unfold enrich
  have hsome : (items.find? (fun j => h.item_id == some j.id)).isSome := by
    rw [List.find?_isSome]
    exact ⟨i, hi, by simp [hm]⟩
  obtain ⟨j, hj⟩ := Option.isSome_iff_exists.mp hsome
  have hjm : j ∈ items := List.mem_of_find?_eq_some hj
  have hpj := List.find?_some hj
  have hid : i.id = j.id := by
    have h2 := beq_iff_eq.mp hpj
    rw [hm] at h2
    exact Option.some.inj h2
  have hij : i = j := by
    by_contra hne
    have hsym : Symmetric (fun a b : ItemRow => a.id ≠ b.id) :=
      fun a b hab => Ne.symm hab
    exact absurd hid (List.Pairwise.forall hsym hu hi hjm hne)
  subst hij
  simp only [hj]

/-- Decomposition of membership in a `get_history` response: the row comes
from the list's history and the output is its LEFT JOIN enrichment. -/
theorem get_history_mem (db : DB) (l : Nat) (e : HistoryOut)
    (he : e ∈ get_history db l) :
    e.entry ∈ db.history ∧ e.entry.list_id = l ∧ e = enrich db.items e.entry := by
  unfold get_history at he
  obtain ⟨h, hh, hfe⟩ := List.mem_map.mp he
  have hh1 : h ∈ (db.history.filter (fun h => h.list_id == l)).insertionSort tsGE :=
    List.mem_of_mem_take hh
  have hh2 : h ∈ db.history.filter (fun h => h.list_id == l) :=
    ((List.perm_insertionSort tsGE _).mem_iff).mp hh1
  have hh3 := List.mem_filter.mp hh2
  have hent : e.entry = h := by rw [← hfe, enrich_entry]
  refine ⟨?_, ?_, ?_⟩
  · rw [hent]; exact hh3.1
  · rw [hent]; simpa using hh3.2
  · rw [hent]; exact hfe.symm

/-- The `get_history` response is sorted by descending timestamp. -/
theorem get_history_sorted (db : DB) (l : Nat) :
    (get_history db l).Pairwise (fun a b => b.entry.timestamp ≤ a.entry.timestamp) := by
  unfold get_history
  rw [List.pairwise_map]
  have hs : ((db.history.filter (fun h => h.list_id == l)).insertionSort tsGE).Sorted tsGE :=
    List.sorted_insertionSort tsGE _
  have ht : (((db.history.filter (fun h => h.list_id == l)).insertionSort tsGE).take 100).Pairwise tsGE :=
    List.Pairwise.sublist (List.take_sublist 100 _) hs
  exact ht.imp (fun hab => by simpa [enrich_entry, tsGE] using hab)

/-- The `get_history` response has at most 100 rows. -/
theorem get_history_len (db : DB) (l : Nat) : (get_history db l).length ≤ 100 := by
  unfold get_history
  rw [List.length_map]
  exact List.length_take_le _ _

/-- C1: for every item mutation the history action follows the undo mapping:
create → `undo_deleted`/`item_created`; text edit → `undo_edited`/`item_edited`;
complete → `undo_uncompleted`/`item_completed`; uncomplete →
`undo_completed`/`item_uncompleted`; delete → `undo_created`/`item_deleted`. -/
theorem undo_action_mapping
    (db : DB) (now l iid : Nat) (t t2 : String) (u : Bool) (item : ItemRow)
    (hfind : db.items.find? (fun i => i.id == iid) = some item)
    (hne : (t2 != item.text) = true) :
    histActionsAppended db (create_item db now l ⟨t, u⟩)
      = [if u then "undo_deleted" else "item_created"]
  ∧ histActionsAppended db (update_item db now iid ⟨some t2, none, u⟩)
      = [if u then "undo_edited" else "item_edited"]
  ∧ histActionsAppended db (update_item db now iid ⟨none, some true, u⟩)
      = [if u then "undo_uncompleted" else "item_completed"]
  ∧ histActionsAppended db (update_item db now iid ⟨none, some false, u⟩)
      = [if u then "undo_completed" else "item_uncompleted"]
  ∧ histActionsAppended db (delete_item db now iid u)
      = [if u then "undo_created" else "item_deleted"] := by
  refine ⟨?_, ?_, ?_, ?_, ?_⟩
  · simp [histActionsAppended, create_item, List.drop_left]
  · simp [histActionsAppended, update_item, hfind, updateItemHistory, textChangedFlag,
      hne, List.drop_left]
  · simp [histActionsAppended, update_item, hfind, updateItemHistory, textChangedFlag,
      List.drop_left]
  · simp [histActionsAppended, update_item, hfind, updateItemHistory, textChangedFlag,
      List.drop_left]
  · simp [histActionsAppended, delete_item, hfind, List.drop_left]

/-- Concrete run of `undo_action_mapping` on `exDB` with the undo flag set. -/
theorem undo_action_mapping_witness :
    histActionsAppended exDB (create_item exDB 5 1 ⟨"Eggs", true⟩) = ["undo_deleted"]
  ∧ histActionsAppended exDB (update_item exDB 5 1 ⟨some "Oat", none, true⟩) = ["undo_edited"]
  ∧ histActionsAppended exDB (update_item exDB 5 1 ⟨none, some true, true⟩) = ["undo_uncompleted"]
  ∧ histActionsAppended exDB (update_item exDB 5 1 ⟨none, some false, true⟩) = ["undo_completed"]
  ∧ histActionsAppended exDB (delete_item exDB 5 1 true) = ["undo_created"] :=
  undo_action_mapping exDB 5 1 1 "Eggs" "Oat" true exItem (by decide) (by decide)

/-- C7: updating an item whose id is not in the store raises 404 and leaves
the store untouched — no item row modified, no history row appended, no
broadcast published. -/
theorem update_item_missing_404
    (db : DB) (now iid : Nat) (d : ItemUpdate)
    (hfind : db.items.find? (fun i => i.id == iid) = none) :
    update_item db now iid d = ⟨.error ⟨404, "Item not found"⟩, db, []⟩ := by
  simp [update_item, hfind]

/-- Concrete run of `update_item_missing_404`: item 7 does not exist. -/
theorem update_item_missing_404_witness :
    update_item exEmptyDB 0 7 ⟨some "x", some true, false⟩
      = ⟨.error ⟨404, "Item not found"⟩, exEmptyDB, []⟩ :=
  update_item_missing_404 exEmptyDB 0 7 ⟨some "x", some true, false⟩ (by decide)

/-- C8: an unknown `item_sort` on a list update and an unknown `list_sort`
on a settings update are rejected with 400 whose detail lists the valid
options, and the store is left unchanged with no broadcast. -/
theorem invalid_sort_rejected
    (db : DB) (l : Nat) (nm ic : Option String) (s s2 : String)
    (hbad : VALID_SORT_OPTIONS.contains s = false)
    (hbad2 : VALID_LIST_SORT_OPTIONS.contains s2 = false) :
    update_list db l ⟨nm, ic, some s⟩
      = ⟨.error ⟨400, "Invalid sort option. Valid options: " ++
          String.intercalate ", " VALID_SORT_OPTIONS⟩, db, []⟩
  ∧ update_settings db (some s2)
      = ⟨.error ⟨400, "Invalid list sort option. Valid: " ++
          String.intercalate ", " VALID_LIST_SORT_OPTIONS⟩, db, []⟩ := by
  have hb : s ∉ VALID_SORT_OPTIONS := by simpa using hbad
  have hb2 : s2 ∉ VALID_LIST_SORT_OPTIONS := by simpa using hbad2
  constructor
  · simp [update_list, hb]
  · simp [update_settings, hb2]

/-- Concrete run of `invalid_sort_rejected` with the value "bogus". -/
theorem invalid_sort_rejected_witness :
    update_list exDB 1 ⟨none, none, some "bogus"⟩
      = ⟨.error ⟨400, "Invalid sort option. Valid options: " ++
          String.intercalate ", " VALID_SORT_OPTIONS⟩, exDB, []⟩
  ∧ update_settings exDB (some "bogus")
      = ⟨.error ⟨400, "Invalid list sort option. Valid: " ++
          String.intercalate ", " VALID_LIST_SORT_OPTIONS⟩, exDB, []⟩ :=
  invalid_sort_rejected exDB 1 none none "bogus" "bogus" (by decide) (by decide)

/-- C9: deleting an item whose id is not in the store succeeds, changes
nothing, appends no history row and publishes no broadcast. -/
theorem delete_item_missing_noop
    (db : DB) (now iid : Nat) (u : Bool)
    (hfind : db.items.find? (fun i => i.id == iid) = none) :
    delete_item db now iid u = ⟨.ok (), db, []⟩ := by
  have hall := List.find?_eq_none.mp hfind
  have hfilter : db.items.filter (fun i => !(i.id == iid)) = db.items := by
    rw [List.filter_eq_self]
    intro a ha
    simpa using hall a ha
  simp [delete_item, hfind, hfilter]

/-- Concrete run of `delete_item_missing_noop`: item 7 does not exist. -/
theorem delete_item_missing_noop_witness :
    delete_item exEmptyDB 0 7 false = ⟨.ok (), exEmptyDB, []⟩ :=
  delete_item_missing_noop exEmptyDB 0 7 false (by decide)

/-- C10: an item update that provides the item's current text and no
`completed` field is a no-op: success, identical store, no history row, no
broadcast. -/
theorem update_item_same_text_noop
    (db : DB) (now iid : Nat) (u : Bool) (item : ItemRow)
    (hfind : db.items.find? (fun i => i.id == iid) = some item) :
    update_item db now iid ⟨some item.text, none, u⟩ = ⟨.ok (), db, []⟩ := by
  simp [update_item, hfind, updateItemHistory, textChangedFlag]

/-- Concrete run of `update_item_same_text_noop`: re-sending "Milk". -/
theorem update_item_same_text_noop_witness :
    update_item exDB 9 1 ⟨some "Milk", none, false⟩ = ⟨.ok (), exDB, []⟩ :=
  update_item_same_text_noop exDB 9 1 false exItem (by decide)

/-- C2 counterexample: renaming list 1 succeeds and broadcasts, yet appends
zero history entries rather than exactly one. -/
theorem list_update_appends_no_history :
    (update_list exListDB 1 ⟨some "Chores", none, none⟩).resp = .ok ()
  ∧ (update_list exListDB 1 ⟨some "Chores", none, none⟩).events
      = [⟨"lists_changed", some 1⟩]
  ∧ (update_list exListDB 1 ⟨some "Chores", none, none⟩).db.history
      = exListDB.history :=
  ⟨rfl, rfl, rfl⟩

/-- C2 (amended): list updates and settings updates append no history entry;
creating a list, creating an item, and deleting an existing item each append
exactly one; an item update appends one entry per recorded change (text
change, completed flag provided), hence zero, one, or two; in every case the
pre-existing history rows are preserved unchanged as a prefix. -/
theorem history_append_discipline
    (db : DB) (now l iid : Nat) (ld : ListUpdate) (cd : ListCreate)
    (icd : ItemCreate) (d : ItemUpdate) (u : Bool) (ls : Option String)
    (item : ItemRow)
    (hfind : db.items.find? (fun i => i.id == iid) = some item) :
    (update_list db l ld).db.history = db.history
  ∧ (update_settings db ls).db.history = db.history
  ∧ (create_list db now cd).db.history
      = db.history ++ [⟨db.nextHistoryId, db.nextListId, none, "list_created",
          some cd.name, now⟩]
  ∧ (create_item db now l icd).db.history
      = db.history ++ [⟨db.nextHistoryId, l, some db.nextItemId,
          (if icd.undo then "undo_deleted" else "item_created"), some icd.text, now⟩]
  ∧ (delete_item db now iid u).db.history
      = db.history ++ [⟨db.nextHistoryId, item.list_id, some iid,
          (if u then "undo_created" else "item_deleted"), some item.text, now⟩]
  ∧ (update_item db now iid d).db.history
      = db.history ++ updateItemHistory db now iid d item
  ∧ (updateItemHistory db now iid d item).length
      = (if textChangedFlag d item then 1 else 0)
        + (if d.completed.isSome then 1 else 0) := by
  refine ⟨?_, ?_, ?_, ?_, ?_, ?_, ?_⟩
  · unfold update_list
    dsimp only
    split
    · rfl
    · split <;> rfl
  · unfold update_settings
    rcases ls with _ | s
    · rfl
    · dsimp only
      split <;> rfl
  · rfl
  · rfl
  · simp [delete_item, hfind]
  · simp only [update_item, hfind]
    split <;> rfl
  · rcases d with ⟨dt, dc, du⟩
    cases dt <;> cases dc <;>
      simp [updateItemHistory, textChangedFlag, completionSnapshot] <;>
      split <;> simp

/-- Concrete run of `history_append_discipline` on `exDB`. -/
theorem history_append_discipline_witness :
    (update_list exDB 1 ⟨some "Chores", none, none⟩).db.history = exDB.history
  ∧ (update_settings exDB (some "created_desc")).db.history = exDB.history
  ∧ (create_list exDB 5 ⟨"Work", "list"⟩).db.history
      = exDB.history ++ [⟨exDB.nextHistoryId, exDB.nextListId, none, "list_created",
          some "Work", 5⟩]
  ∧ (create_item exDB 5 1 ⟨"Eggs", false⟩).db.history
      = exDB.history ++ [⟨exDB.nextHistoryId, 1, some exDB.nextItemId,
          (if false then "undo_deleted" else "item_created"), some "Eggs", 5⟩]
  ∧ (delete_item exDB 5 1 false).db.history
      = exDB.history ++ [⟨exDB.nextHistoryId, exItem.list_id, some 1,
          (if false then "undo_created" else "item_deleted"), some exItem.text, 5⟩]
  ∧ (update_item exDB 5 1 ⟨some "Oat", some true, false⟩).db.history
      = exDB.history ++ updateItemHistory exDB 5 1 ⟨some "Oat", some true, false⟩ exItem
  ∧ (updateItemHistory exDB 5 1 ⟨some "Oat", some true, false⟩ exItem).length
      = (if textChangedFlag ⟨some "Oat", some true, false⟩ exItem then 1 else 0)
        + (if (some true : Option Bool).isSome then 1 else 0) :=
  history_append_discipline exDB 5 1 1 ⟨some "Chores", none, none⟩ ⟨"Work", "list"⟩
    ⟨"Eggs", false⟩ ⟨some "Oat", some true, false⟩ false (some "created_desc")
    exItem (by decide)

/-- An unbounded queue accepts every published event in publish order. -/
theorem publishAll_unbounded (es : List Event) (q : BQueue) (h : q.maxsize = 0) :
    (publishAll q es).messages = q.messages ++ es := by
  induction es generalizing q with
  | nil => simp [publishAll]
  | cons e es ih =>
    have hput : put_nowait q e = { q with messages := q.messages ++ [e] } := by
      simp [put_nowait, queueFull, h]
    have hstep : publishAll q (e :: es)
        = publishAll { q with messages := q.messages ++ [e] } es := by
      simp [publishAll, hput]
    rw [hstep, ih ⟨q.maxsize, q.messages ++ [e]⟩ h]
    simp

/-- C3 counterexample: the channel `sse_events` registers for a subscriber
is `Queue()` with maxsize 0, which is unbounded: publishing three events
while the subscriber consumes none stores all three, and the queue is never
full, so no capacity C bounds what the subscriber observes. -/
theorem sse_queue_unbounded :
    sseNewQueue.maxsize = 0
  ∧ (publishAll sseNewQueue [exEventA, exEventB, exEventB]).messages.length = 3
  ∧ queueFull (publishAll sseNewQueue [exEventA, exEventB, exEventB]) = false :=
  ⟨rfl, rfl, rfl⟩

/-- C3 (amended): `publish` never blocks and never surfaces an error: it
delivers to each subscriber independently via a non-blocking put, dropping
the event for a full bounded subscriber only, while any subscriber with room
receives it in publish order; the channels actually registered by the
live-update endpoint are unbounded (`Queue()`, maxsize 0), so such a
subscriber observes every published event. -/
theorem broadcast_nonblocking
    (clients : List BQueue) (e : Event) (i : Nat) (qf qn : BQueue) (es : List Event)
    (hqf : queueFull qf = true) (hqn : queueFull qn = false) :
    (broadcast_update clients e).length = clients.length
  ∧ (broadcast_update clients e)[i]? = clients[i]?.map (fun q => put_nowait q e)
  ∧ put_nowait qf e = qf
  ∧ (put_nowait qn e).messages = qn.messages ++ [e]
  ∧ sseNewQueue.maxsize = 0
  ∧ (publishAll sseNewQueue es).messages = es := by
  refine ⟨?_, ?_, ?_, ?_, rfl, ?_⟩
  · simp [broadcast_update]
  · simp [broadcast_update]
  · simp [put_nowait, hqf]
  · simp [put_nowait, hqn]
  · simpa using publishAll_unbounded es sseNewQueue rfl

/-- Concrete run of `broadcast_nonblocking`: a full capacity-1 subscriber
drops the event while a capacity-2 subscriber receives it. -/
theorem broadcast_nonblocking_witness :
    (broadcast_update [exFullQ, exRoomQ] exEventB).length
      = ([exFullQ, exRoomQ] : List BQueue).length
  ∧ (broadcast_update [exFullQ, exRoomQ] exEventB)[0]?
      = ([exFullQ, exRoomQ] : List BQueue)[0]?.map (fun q => put_nowait q exEventB)
  ∧ put_nowait exFullQ exEventB = exFullQ
  ∧ (put_nowait exRoomQ exEventB).messages = exRoomQ.messages ++ [exEventB]
  ∧ sseNewQueue.maxsize = 0
  ∧ (publishAll sseNewQueue [exEventA, exEventB]).messages = [exEventA, exEventB] :=
  broadcast_nonblocking [exFullQ, exRoomQ] exEventB 0 exFullQ exRoomQ
    [exEventA, exEventB] (by decide) (by decide)

/-- C5: deleting list 1 from `exListDB` (which owns item 1 and one history
row) removes the list row and the history row, but the item row survives
orphaned: the `ON DELETE CASCADE` declared on `items.list_id` never runs
because the sqlite connection leaves foreign-key enforcement disabled. -/
theorem delete_list_leaves_items :
    (delete_list exListDB 1).resp = .ok ()
  ∧ (delete_list exListDB 1).db.lists = []
  ∧ (delete_list exListDB 1).db.history = []
  ∧ (delete_list exListDB 1).db.items = [⟨1, 1, "Milk", false, 1, none⟩] :=
  ⟨rfl, rfl, rfl, rfl⟩

/-- C6 counterexample: after deleting item 1 the item is gone, yet every
history row for it still carries `item_id = some 1` — nothing nulls the
reference. -/
theorem history_item_id_not_nulled :
    (delete_item exListDB 5 1 false).db.items = []
  ∧ (delete_item exListDB 5 1 false).db.history.map (·.item_id)
      = [some 1, some 1] :=
  ⟨rfl, rfl⟩

/-- C6 (amended): after an item is deleted its history rows keep the (now
dangling) `item_id` — the delete itself appends a row carrying it together
with the snapshot text — and history retrieval enriches any entry whose
`item_id` references the deleted item with null current-state fields. -/
theorem deleted_item_dangling_reference
    (db : DB) (now iid l : Nat) (u : Bool) (item : ItemRow) (e : HistoryOut)
    (hfind : db.items.find? (fun i => i.id == iid) = some item)
    (he : e ∈ get_history (delete_item db now iid u).db l)
    (href : e.entry.item_id = some iid) :
    ((delete_item db now iid u).db.items.all (fun i => i.id != iid)) = true
  ∧ (delete_item db now iid u).db.history
      = db.history ++ [⟨db.nextHistoryId, item.list_id, some iid,
          (if u then "undo_created" else "item_deleted"), some item.text, now⟩]
  ∧ e.item_current_completed = none
  ∧ e.item_current_text = none := by
  have hitems : (delete_item db now iid u).db.items
      = db.items.filter (fun i => !(i.id == iid)) := by
    simp [delete_item, hfind]
  have hall : ((delete_item db now iid u).db.items.all (fun i => i.id != iid)) = true := by
    rw [hitems, List.all_eq_true]
    intro a ha
    exact (List.mem_filter.mp ha).2
  obtain ⟨_, _, henr⟩ := get_history_mem (delete_item db now iid u).db l e he
  have hnone : ∀ j ∈ (delete_item db now iid u).db.items, e.entry.item_id ≠ some j.id := by
    intro j hj
    have hjne : (j.id != iid) = true := List.all_eq_true.mp hall j hj
    rw [href]
    intro hcontra
    have : iid = j.id := Option.some.inj hcontra
    exact (bne_iff_ne.mp hjne) this.symm
  have h2 : enrich (delete_item db now iid u).db.items e.entry = ⟨e.entry, none, none⟩ :=
    enrich_no_match _ _ hnone
  rw [h2] at henr
  refine ⟨hall, by simp [delete_item, hfind], ?_, ?_⟩
  · exact congrArg HistoryOut.item_current_completed henr
  · exact congrArg HistoryOut.item_current_text henr

/-- Concrete run of `deleted_item_dangling_reference` on `exListDB`. -/
theorem deleted_item_dangling_reference_witness :
    ((delete_item exListDB 5 1 false).db.items.all (fun i => i.id != 1)) = true
  ∧ (delete_item exListDB 5 1 false).db.history
      = exListDB.history ++ [⟨exListDB.nextHistoryId, 1, some 1,
          (if false then "undo_created" else "item_deleted"), some "Milk", 5⟩]
  ∧ (⟨⟨2, 1, some 1, "item_deleted", some "Milk", 5⟩, none, none⟩
        : HistoryOut).item_current_completed = none
  ∧ (⟨⟨2, 1, some 1, "item_deleted", some "Milk", 5⟩, none, none⟩
        : HistoryOut).item_current_text = none :=
  deleted_item_dangling_reference exListDB 5 1 1 false ⟨1, 1, "Milk", false, 1, none⟩
    ⟨⟨2, 1, some 1, "item_deleted", some "Milk", 5⟩, none, none⟩
    (by decide) (by decide) (by decide)

/-- C4: history retrieval for a list returns at most 100 entries, ordered by
descending timestamp; every returned row is an original history row of that
list (snapshot text intact); a row whose `item_id` matches a current item is
enriched with that item's current completed flag and text, and a row whose
`item_id` matches no current item (deleted item) gets null enrichment
fields. -/
theorem get_history_spec (db : DB) (l : Nat) (e e2 : HistoryOut) (i : ItemRow)
    (hu : db.items.Pairwise (fun a b => a.id ≠ b.id))
    (he : e ∈ get_history db l)
    (he2 : e2 ∈ get_history db l)
    (hi : i ∈ db.items)
    (hm : e.entry.item_id = some i.id)
    (hgone : ∀ j ∈ db.items, e2.entry.item_id ≠ some j.id) :
    (get_history db l).length ≤ 100
  ∧ (get_history db l).Pairwise (fun a b => b.entry.timestamp ≤ a.entry.timestamp)
  ∧ e.entry ∈ db.history ∧ e.entry.list_id = l
  ∧ e.item_current_completed = some i.completed
  ∧ e.item_current_text = some i.text
  ∧ e2.entry ∈ db.history ∧ e2.entry.list_id = l
  ∧ e2.item_current_completed = none ∧ e2.item_current_text = none := by
  obtain ⟨hmem, hlid, henr⟩ := get_history_mem db l e he
  obtain ⟨hmem2, hlid2, henr2⟩ := get_history_mem db l e2 he2
  have h1 : enrich db.items e.entry = ⟨e.entry, some i.completed, some i.text⟩ :=
    enrich_match db.items e.entry i hu hi hm
  have h2 : enrich db.items e2.entry = ⟨e2.entry, none, none⟩ :=
    enrich_no_match db.items e2.entry hgone
  rw [h1] at henr
  rw [h2] at henr2
  exact ⟨get_history_len db l, get_history_sorted db l, hmem, hlid,
    congrArg HistoryOut.item_current_completed henr,
    congrArg HistoryOut.item_current_text henr, hmem2, hlid2,
    congrArg HistoryOut.item_current_completed henr2,
    congrArg HistoryOut.item_current_text henr2⟩

/-- Concrete run of `get_history_spec` on `exHistDB`: the entry for the
surviving item 2 is enriched with its current state, the entry for the
deleted item 1 gets nulls. -/
theorem get_history_spec_witness :
    (get_history exHistDB 1).length ≤ 100
  ∧ (get_history exHistDB 1).Pairwise (fun a b => b.entry.timestamp ≤ a.entry.timestamp)
  ∧ exOutLive.entry ∈ exHistDB.history ∧ exOutLive.entry.list_id = 1
  ∧ exOutLive.item_current_completed = some exItem2.completed
  ∧ exOutLive.item_current_text = some exItem2.text
  ∧ exOutGone.entry ∈ exHistDB.history ∧ exOutGone.entry.list_id = 1
  ∧ exOutGone.item_current_completed = none ∧ exOutGone.item_current_text = none :=
  get_history_spec exHistDB 1 exOutLive exOutGone exItem2 (by decide) (by decide)
    (by decide) (by decide) (by decide) (by decide)
